import Mathlib

/-!
Shallow embedding of the redis job broker from pkg/jobs/redis_broker.go.

The broker state is the `redisBroker` struct: the atomic `running` flag
(a uint32, modelled as a Nat since only the values 0 and 1 are ever
stored), the list of started worker pools, and the list of registered
worker-type names.  External collaborators (the redis client, the job
store facade `Get`/`Create`, the worker pools, the context, the RNG)
are modelled as explicit inputs: each operation takes an environment
record describing the outcomes of the external calls it makes, and
returns, besides the Go return values, an effects record listing the
externally visible actions it performed (jobs persisted, LPush calls,
Close calls, pool shutdowns, tokens read from the closed channel).
-/

namespace CozyJobs

/-- `redisPrefix` from the source: the prefix for jobs queues in redis. -/
def redisPrefixKey : String := "j/"

/-- `redisHighPrioritySuffix` from the source: suffix for the prioritized queue. -/
def redisHighPrioritySuffix : String := "/p0"

/-- Errors surfaced by the broker.  `closed` is `ErrClosed`, `unknownWorker` is
`ErrUnknownWorker`; `pool`, `store` and `ctx` carry messages of errors coming
from a worker pool start, the store or queue client, and the context;
`multi` is the `multierror` aggregation of pool shutdown errors. -/
inductive Err
  | closed
  | unknownWorker
  | ctx (msg : String)
  | pool (msg : String)
  | store (msg : String)
  | multi (msgs : List String)
deriving Repr, DecidableEq

/-- One entry of a `WorkersList`: the worker type name and its concurrency
(a Go `int`, possibly negative). Execution parameters are opaque to the broker. -/
structure WorkerConfig where
  workerType : String
  concurrency : Int
deriving Repr, DecidableEq

/-- The `redisBroker` struct fields the claims are about. `workers` holds the
configs of the pools built with `NewWorker` (only those with concurrency > 0). -/
structure Broker where
  running : Nat
  workers : List WorkerConfig
  workersTypes : List String
deriving Repr, DecidableEq

/-- `NewRedisBroker`: a fresh broker, flag at 0, no pools, no types. -/
def newRedisBroker : Broker :=
  { running := 0, workers := [], workersTypes := [] }

/-- `atomic.CompareAndSwapUint32`: returns the new stored value and whether
the swap happened. -/
def compareAndSwapUint32 (v old new : Nat) : Nat × Bool :=
  if v = old then (new, true) else (v, false)

/-! ## StartWorkers -/

/-- Externally visible actions of `StartWorkers`: the keys of the spawned
poll loops (one `go b.pollLoop(...)` per successfully started pool) and the
configs whose pool `Start` was called and succeeded. -/
structure StartEffects where
  pollLoopKeys : List String
  poolsStarted : List WorkerConfig
deriving Repr, DecidableEq

def emptyStartEffects : StartEffects := { pollLoopKeys := [], poolsStarted := [] }

/-- The `for _, conf := range ws` loop of `StartWorkers`.  `startErr conf`
is the outcome of `w.Start(ch)` for the pool built from `conf`.  Each type
name is appended to `workersTypes`; configs with concurrency ≤ 0 are skipped;
otherwise the pool is appended to `workers`, started, and on start success a
poll loop is spawned; a start error is returned at once, pools already
started are left as-is. -/
def startWorkersLoop (startErr : WorkerConfig → Option String) :
    Broker → List WorkerConfig → StartEffects → (Broker × Option Err) × StartEffects
  | b, [], eff => ((b, none), eff)
  | b, conf :: rest, eff =>
    let b1 : Broker := { b with workersTypes := b.workersTypes ++ [conf.workerType] }
    if conf.concurrency ≤ 0 then
      startWorkersLoop startErr b1 rest eff
    else
      let b2 : Broker := { b1 with workers := b1.workers ++ [conf] }
      match startErr conf with
      | some e => ((b2, some (Err.pool e)), eff)
      | none =>
        startWorkersLoop startErr b2 rest
          { eff with
            pollLoopKeys := eff.pollLoopKeys ++ [redisPrefixKey ++ conf.workerType],
            poolsStarted := eff.poolsStarted ++ [conf] }

/-- `StartWorkers`: CAS the running flag 0 → 1 (else `ErrClosed`), then run
the registration loop.  (The legacy `NbWorkers` slot limiter and the log
lines touch no broker state and are omitted.) -/
def startWorkers (startErr : WorkerConfig → Option String) (b : Broker)
    (ws : List WorkerConfig) : (Broker × Option Err) × StartEffects :=
  match compareAndSwapUint32 b.running 0 1 with
  | (r, false) => (({ b with running := r }, some Err.closed), emptyStartEffects)
  | (r, true) => startWorkersLoop startErr { b with running := r } ws emptyStartEffects

/-- `WorkersTypes`: returns the registered type names. -/
def WorkersTypes (b : Broker) : List String := b.workersTypes

/-! ## ShutdownWorkers -/

/-- Outcome of one `select` iteration in the shutdown wait loop: either
`ctx.Done()` fires or a token arrives on the closed channel. -/
inductive SelectEvent
  | ctxDone
  | closedToken
deriving Repr, DecidableEq

/-- Environment of `ShutdownWorkers`: the outcome of the i-th `select`
(the Go `select` picks nondeterministically when both are ready; the oracle
fixes the resolution), the context error message, and the error returned by
the i-th pool's `Shutdown(ctx)` (arrival order on the `errs` channel is
modelled as pool order; the claims do not depend on the order). -/
structure ShutdownEnv where
  selectEvents : Nat → SelectEvent
  ctxErrMsg : String
  poolErrs : Nat → Option String

/-- Externally visible actions of `ShutdownWorkers`. -/
structure ShutdownEffects where
  closeCalls : Nat
  tokensReceived : Nat
  shutdownCalls : Nat
deriving Repr, DecidableEq

/-- The `for i := 0; i < len(b.workers); i++ { select ... }` wait loop,
starting at iteration `i` with `k` iterations left: returns the number of
tokens received from the closed channel and whether `ctx.Done()` fired. -/
def waitTokens (events : Nat → SelectEvent) : Nat → Nat → Nat × Bool
  | _, 0 => (0, false)
  | i, Nat.succ k =>
    match events i with
    | SelectEvent.ctxDone => (0, true)
    | SelectEvent.closedToken =>
      let r := waitTokens events (i + 1) k
      (r.1 + 1, r.2)

/-- `ShutdownWorkers`: CAS the running flag 1 → 0 (else `ErrClosed`); with
zero pools return nil at once (before the `defer b.client.Close()` is even
installed); otherwise Close is deferred, one token per pool is awaited
(returning `ctx.Err()` if the context fires first), then every pool's
`Shutdown(ctx)` runs and the non-nil errors are aggregated. -/
def shutdownWorkers (b : Broker) (env : ShutdownEnv) :
    (Broker × Option Err) × ShutdownEffects :=
  match compareAndSwapUint32 b.running 1 0 with
  | (r, false) =>
    (({ b with running := r }, some Err.closed),
     { closeCalls := 0, tokensReceived := 0, shutdownCalls := 0 })
  | (r, true) =>
    let b1 : Broker := { b with running := r }
    if b1.workers.length = 0 then
      ((b1, none), { closeCalls := 0, tokensReceived := 0, shutdownCalls := 0 })
    else
      let n := b1.workers.length
      let w := waitTokens env.selectEvents 0 n
      if w.2 then
        ((b1, some (Err.ctx env.ctxErrMsg)),
         { closeCalls := 1, tokensReceived := w.1, shutdownCalls := 0 })
      else
        let es := (List.range n).filterMap env.poolErrs
        ((b1, if es = [] then none else some (Err.multi es)),
         { closeCalls := 1, tokensReceived := n, shutdownCalls := n })

/-! ## Poll loop -/

/-- The broker-visible fields of a `Job` descriptor. -/
structure Job where
  jobID : String
  domain : String
  workerType : String
  manual : Bool
deriving Repr, DecidableEq

/-- `strings.SplitN(s, "/", 2)` on the character list: `none` when the list
contains no slash, otherwise the parts before and after the first slash. -/
def splitN2Chars : List Char → Option (List Char × List Char)
  | [] => none
  | c :: cs =>
    if c = '/' then some ([], cs)
    else
      match splitN2Chars cs with
      | none => none
      | some p => some (c :: p.1, p.2)

/-- `strings.SplitN(s, "/", 2)`: `[s]` when `s` has no slash, otherwise the
two parts around the first slash. -/
def splitN2 (s : String) : List String :=
  match splitN2Chars s.data with
  | none => [s]
  | some p => [String.mk p.1, String.mk p.2]

/-- Inputs of one iteration of `pollLoop`: the value of the atomic load of
`running` at the loop head, the draw `rng.Intn(3)`, the result of `BRPop`
(`none` models a non-nil error, `some results` the returned slice), and the
job store facade `Get(domain, jobID)` lookup. -/
structure PollInput where
  running : Nat
  draw : Fin 3
  popResult : Option (List String)
  getJob : String → String → Option Job

/-- What one poll-loop iteration does after its external calls: return from
the loop, sleep `ms` milliseconds and continue, log `warn` and continue
without sleeping, or send a job on the pool's feed channel and continue. -/
inductive PollStep
  | exit
  | sleepContinue (ms : Nat)
  | dropContinue (warn : String)
  | deliver (j : Job)
deriving Repr, DecidableEq

/-- Result of one poll-loop iteration: the ordered key pair handed to
`BRPop` (`none` when the loop exits before issuing the pop), the step taken,
and the `LPush` calls issued (the loop body contains none, so this list is
built empty on every path, faithfully to the source). -/
structure PollIterResult where
  brpopKeys : Option (String × String)
  step : PollStep
  lpushCalls : List (String × String)
deriving Repr, DecidableEq

/-- One iteration of `pollLoop(key, ch)`: exit if `running == 0`; compute
`keyP0 = key + "/p0"`, `keyP1 = key`, swapped when the draw is 0; `BRPop`
over `(keyP0, keyP1)`; on error or fewer than 2 results sleep 100 ms; drop
(with a warning) keys shorter than the prefix, values that do not split in
two around a slash, and `(domain, jobID)` pairs `Get` cannot resolve;
otherwise deliver the job on the feed channel. -/
def pollIteration (key : String) (inp : PollInput) : PollIterResult :=
  if inp.running = 0 then ⟨none, PollStep.exit, []⟩
  else
    let keyP0 := key ++ redisHighPrioritySuffix
    let keyP1 := key
    let ks := if inp.draw = 0 then (keyP1, keyP0) else (keyP0, keyP1)
    match inp.popResult with
    | none => ⟨some ks, PollStep.sleepContinue 100, []⟩
    | some results =>
      if results.length < 2 then ⟨some ks, PollStep.sleepContinue 100, []⟩
      else
        let k := results.headD ""
        let v := (results.drop 1).headD ""
        if k.length < redisPrefixKey.length then
          ⟨some ks, PollStep.dropContinue ("Invalid key " ++ k), []⟩
        else
          let parts := splitN2 v
          if parts.length ≠ 2 then
            ⟨some ks, PollStep.dropContinue ("Invalid val " ++ v), []⟩
          else
            let domain := parts.headD ""
            let jobID := (parts.drop 1).headD ""
            match inp.getJob domain jobID with
            | none =>
              ⟨some ks, PollStep.dropContinue
                ("Cannot find job " ++ jobID ++ " on domain " ++ domain), []⟩
            | some job => ⟨some ks, PollStep.deliver job, []⟩

/-- `pollLoop(key, ch)` run over a finite trace of per-iteration inputs:
returns the steps taken and the number of tokens sent on the broker's closed
channel (the `defer` sends exactly one token when, and only when, the
function returns; an exhausted trace models a loop still running). -/
def pollLoopRun (key : String) : List PollInput → List PollStep × Nat
  | [] => ([], 0)
  | inp :: rest =>
    match (pollIteration key inp).step with
    | PollStep.exit => ([PollStep.exit], 1)
    | s =>
      let r := pollLoopRun key rest
      (s :: r.1, r.2)

/-! ## PushJob -/

/-- A `JobRequest` as the broker reads it. -/
structure JobRequest where
  workerType : String
  domain : String
  manual : Bool
deriving Repr, DecidableEq

/-- `NewJob(req)`: the job descriptor built from the request; `jobID` is the
identifier the store assigns when `job.Create()` persists it. -/
def NewJob (jobID : String) (req : JobRequest) : Job :=
  { jobID := jobID, domain := req.domain, workerType := req.workerType,
    manual := req.manual }

/-- `utils.IsInArray(s, a)`: membership of a string in a string slice. -/
def IsInArray (s : String) (a : List String) : Bool := a.contains s

/-- Environment of `PushJob`: the id `Create` assigns, and the outcomes of
`job.Create()` and `client.LPush(...)`. -/
structure PushEnv where
  newJobID : String
  createErr : Option String
  lpushErr : Option String
deriving Repr, DecidableEq

/-- Externally visible actions of `PushJob`: jobs persisted by a successful
`Create`, and `(key, value)` pairs of issued `LPush` calls.  The source has
no delete or rollback call, so a persisted job stays persisted. -/
structure PushEffects where
  created : List Job
  lpushCalls : List (String × String)
deriving Repr, DecidableEq

/-- `PushJob(req)`: `ErrClosed` when `running == 0`; `ErrUnknownWorker` when
the worker type is not registered; otherwise `Create` the job (errors
returned as-is), build `key = "j/" + workerType` (plus `"/p0"` when the job
is manual) and `val = domain + "/" + jobID`, `LPush` (errors returned
as-is), and on success return the persisted job. -/
def pushJob (b : Broker) (env : PushEnv) (req : JobRequest) :
    Except Err Job × PushEffects :=
  if b.running = 0 then
    (Except.error Err.closed, { created := [], lpushCalls := [] })
  else if ¬ IsInArray req.workerType b.workersTypes then
    (Except.error Err.unknownWorker, { created := [], lpushCalls := [] })
  else
    let job := NewJob env.newJobID req
    match env.createErr with
    | some e => (Except.error (Err.store e), { created := [], lpushCalls := [] })
    | none =>
      let key0 := redisPrefixKey ++ job.workerType
      let val := job.domain ++ "/" ++ job.jobID
      let key := if job.manual then key0 ++ redisHighPrioritySuffix else key0
      match env.lpushErr with
      | some e => (Except.error (Err.store e), { created := [job], lpushCalls := [] })
      | none => (Except.ok job, { created := [job], lpushCalls := [(key, val)] })

/-! ## Concrete instances used to exercise the model -/

/-- A store facade with no jobs. -/
def sampleGet : String → String → Option Job := fun _ _ => none

/-- A pool `Start` oracle that always succeeds. -/
def noStartErr : WorkerConfig → Option String := fun _ => none

/-- A shutdown environment where every select receives a closed token and
every pool shuts down cleanly. -/
def allTokensEnv : ShutdownEnv :=
  { selectEvents := fun _ => SelectEvent.closedToken,
    ctxErrMsg := "context canceled",
    poolErrs := fun _ => none }

/-! ## Helper lemmas -/

theorem splitN2Chars_eq_none (l : List Char) :
    splitN2Chars l = none ↔ '/' ∉ l := by
  induction l with
  | nil => simp [splitN2Chars]
  | cons c cs ih =>
    simp only [splitN2Chars]
    by_cases hc : c = '/'
    · simp [hc]
    · rw [if_neg hc]
      cases h : splitN2Chars cs with
      | none =>
        have h1 : ('/' : Char) ∉ cs := ih.mp h
        have h2 : ('/' : Char) ≠ c := fun hh => hc hh.symm
        simp [List.mem_cons, h1, h2]
      | some p =>
        have h1 : ('/' : Char) ∈ cs := by
          by_contra hn
          rw [ih.mpr hn] at h
          exact Option.noConfusion h
        simp [List.mem_cons, h1]

theorem pollIteration_brpopKeys (key : String) (inp : PollInput)
    (h : inp.running ≠ 0) :
    (pollIteration key inp).brpopKeys =
      some (if inp.draw = 0 then (key, key ++ redisHighPrioritySuffix)
            else (key ++ redisHighPrioritySuffix, key)) := by
  unfold pollIteration
  rw [if_neg h]
  cases inp.popResult with
  | none => rfl
  | some results =>
    simp only []
    split
    · rfl
    · split
      · rfl
      · split
        · rfl
        · cases inp.getJob _ _ <;> rfl

theorem pollIteration_step_ne_exit (key : String) (inp : PollInput)
    (h : inp.running ≠ 0) :
    (pollIteration key inp).step ≠ PollStep.exit := by
  unfold pollIteration
  rw [if_neg h]
  cases inp.popResult with
  | none => simp
  | some results =>
    simp only []
    split
    · simp
    · split
      · simp
      · split
        · simp
        · cases inp.getJob _ _ <;> simp

theorem pollIteration_step_exit_iff (key : String) (inp : PollInput) :
    (pollIteration key inp).step = PollStep.exit ↔ inp.running = 0 := by
  constructor
  · intro h
    by_contra hr
    exact pollIteration_step_ne_exit key inp hr h
  · intro h
    simp [pollIteration, h]

theorem pollIteration_lpushCalls (key : String) (inp : PollInput) :
    (pollIteration key inp).lpushCalls = [] := by
  unfold pollIteration
  split
  · rfl
  · cases inp.popResult with
    | none => rfl
    | some results =>
      simp only []
      split
      · rfl
      · split
        · rfl
        · split
          · rfl
          · cases inp.getJob _ _ <;> rfl

theorem waitTokens_all_closed (ev : Nat → SelectEvent) :
    ∀ k s, (∀ i, i < k → ev (s + i) = SelectEvent.closedToken) →
      waitTokens ev s k = (k, false) := by
  intro k
  induction k with
  | zero => intro s _; rfl
  | succ k ih =>
    intro s h
    have h0 : ev s = SelectEvent.closedToken := by
      simpa using h 0 (Nat.succ_pos k)
    have hrest : ∀ i, i < k → ev (s + 1 + i) = SelectEvent.closedToken := by
      intro i hi
      have := h (i + 1) (Nat.succ_lt_succ hi)
      simpa [Nat.add_assoc, Nat.add_comm 1 i] using this
    simp [waitTokens, h0, ih (s + 1) hrest]

theorem waitTokens_ctxDone (ev : Nat → SelectEvent) :
    ∀ k s, (∃ i, i < k ∧ ev (s + i) = SelectEvent.ctxDone) →
      (waitTokens ev s k).2 = true := by
  intro k
  induction k with
  | zero =>
    rintro s ⟨i, hi, _⟩
    exact absurd hi (Nat.not_lt_zero i)
  | succ k ih =>
    rintro s ⟨i, hi, hev⟩
    cases he : ev s with
    | ctxDone => simp [waitTokens, he]
    | closedToken =>
      cases i with
      | zero =>
        rw [Nat.add_zero, he] at hev
        exact SelectEvent.noConfusion hev
      | succ j =>
        have hj : ∃ i, i < k ∧ ev (s + 1 + i) = SelectEvent.ctxDone :=
          ⟨j, Nat.lt_of_succ_lt_succ hi, by
            simpa [Nat.add_assoc, Nat.add_comm 1 j] using hev⟩
        simp [waitTokens, he, ih (s + 1) hj]

theorem startWorkersLoop_ne_closed (f : WorkerConfig → Option String)
    (ws : List WorkerConfig) : ∀ b eff,
    (startWorkersLoop f b ws eff).1.2 ≠ some Err.closed := by
  induction ws with
  | nil => intro b eff; simp [startWorkersLoop]
  | cons conf rest ih =>
    intro b eff
    simp only [startWorkersLoop]
    split
    · exact ih _ _
    · cases hf : f conf with
      | some e => simp
      | none => exact ih _ _

theorem startWorkersLoop_success (f : WorkerConfig → Option String)
    (ws : List WorkerConfig) : ∀ b eff,
    (startWorkersLoop f b ws eff).1.2 = none →
    (startWorkersLoop f b ws eff).1.1.workersTypes
        = b.workersTypes ++ ws.map WorkerConfig.workerType
    ∧ (startWorkersLoop f b ws eff).1.1.workers
        = b.workers ++ ws.filter (fun c => decide (0 < c.concurrency))
    ∧ (startWorkersLoop f b ws eff).2.pollLoopKeys
        = eff.pollLoopKeys ++ (ws.filter (fun c => decide (0 < c.concurrency))).map
            (fun c => redisPrefixKey ++ c.workerType)
    ∧ (startWorkersLoop f b ws eff).1.1.running = b.running := by
  induction ws with
  | nil => intro b eff _; simp [startWorkersLoop]
  | cons conf rest ih =>
    intro b eff h
    by_cases hc : conf.concurrency ≤ 0
    · have hfil : decide (0 < conf.concurrency) = false := by
        simpa using not_lt.mpr hc
      rw [startWorkersLoop] at h ⊢
      rw [if_pos hc] at h ⊢
      have := ih _ _ h
      simpa [hfil, List.append_assoc] using this
    · have hfil : decide (0 < conf.concurrency) = true := by
        simpa using not_le.mp hc
      rw [startWorkersLoop] at h ⊢
      rw [if_neg hc] at h ⊢
      cases hf : f conf with
      | some e =>
        rw [hf] at h
        simp at h
      | none =>
        rw [hf] at h
        obtain ⟨t1, t2, t3, t4⟩ := ih
          { running := b.running, workers := b.workers ++ [conf],
            workersTypes := b.workersTypes ++ [conf.workerType] }
          { pollLoopKeys := eff.pollLoopKeys ++ [redisPrefixKey ++ conf.workerType],
            poolsStarted := eff.poolsStarted ++ [conf] } h
        refine ⟨t1.trans (by simp), t2.trans (by simp [List.filter_cons, hfil]),
          t3.trans (by simp [List.filter_cons, hfil]), t4⟩

theorem pollLoopRun_tokens_iff (key : String) (inps : List PollInput) :
    (pollLoopRun key inps).2 = 1 ↔ ∃ inp ∈ inps, inp.running = 0 := by
  induction inps with
  | nil => simp [pollLoopRun]
  | cons inp rest ih =>
    by_cases h : inp.running = 0
    · have hs : (pollIteration key inp).step = PollStep.exit :=
        (pollIteration_step_exit_iff key inp).mpr h
      simp only [pollLoopRun, hs]
      constructor
      · intro _; exact ⟨inp, List.mem_cons_self _ _, h⟩
      · intro _; trivial
    · have hs := pollIteration_step_ne_exit key inp h
      cases hstep : (pollIteration key inp).step with
      | exit => exact absurd hstep hs
      | sleepContinue ms =>
        simp only [pollLoopRun, hstep]
        rw [ih]
        simp [List.mem_cons, h]
      | dropContinue w =>
        simp only [pollLoopRun, hstep]
        rw [ih]
        simp [List.mem_cons, h]
      | deliver j =>
        simp only [pollLoopRun, hstep]
        rw [ih]
        simp [List.mem_cons, h]

theorem pollLoopRun_no_exit (key : String) (inps : List PollInput)
    (h : ∀ inp ∈ inps, inp.running ≠ 0) :
    (pollLoopRun key inps).2 = 0
    ∧ (pollLoopRun key inps).1.length = inps.length := by
  induction inps with
  | nil => simp [pollLoopRun]
  | cons inp rest ih =>
    have h0 : inp.running ≠ 0 := h inp (List.mem_cons_self _ _)
    have hrest : ∀ x ∈ rest, x.running ≠ 0 :=
      fun x hx => h x (List.mem_cons_of_mem _ hx)
    have hne := pollIteration_step_ne_exit key inp h0
    cases hstep : (pollIteration key inp).step with
    | exit => exact absurd hstep hne
    | sleepContinue ms =>
      simp only [pollLoopRun, hstep]
      simpa using ih hrest
    | dropContinue w =>
      simp only [pollLoopRun, hstep]
      simpa using ih hrest
    | deliver j =>
      simp only [pollLoopRun, hstep]
      simpa using ih hrest

theorem pollLoopRun_tokens_le_one (key : String) (inps : List PollInput) :
    (pollLoopRun key inps).2 ≤ 1 := by
  induction inps with
  | nil => simp [pollLoopRun]
  | cons inp rest ih =>
    cases hstep : (pollIteration key inp).step with
    | exit => simp [pollLoopRun, hstep]
    | sleepContinue ms => simpa [pollLoopRun, hstep] using ih
    | dropContinue w => simpa [pollLoopRun, hstep] using ih
    | deliver j => simpa [pollLoopRun, hstep] using ih

theorem shutdownWorkers_noWorkers (b : Broker) (env : ShutdownEnv)
    (h1 : b.running = 1) (h2 : b.workers.length = 0) :
    shutdownWorkers b env
      = (({ b with running := 0 }, none),
         { closeCalls := 0, tokensReceived := 0, shutdownCalls := 0 }) := by
  have hcas : compareAndSwapUint32 b.running 1 0 = (0, true) := by rw [h1]; rfl
  unfold shutdownWorkers
  rw [hcas]
  dsimp only
  rw [if_pos h2]

theorem shutdownWorkers_ctx (b : Broker) (env : ShutdownEnv)
    (h1 : b.running = 1) (h2 : ¬ b.workers.length = 0)
    (hw : (waitTokens env.selectEvents 0 b.workers.length).2 = true) :
    shutdownWorkers b env
      = (({ b with running := 0 }, some (Err.ctx env.ctxErrMsg)),
         { closeCalls := 1,
           tokensReceived := (waitTokens env.selectEvents 0 b.workers.length).1,
           shutdownCalls := 0 }) := by
  have hcas : compareAndSwapUint32 b.running 1 0 = (0, true) := by rw [h1]; rfl
  unfold shutdownWorkers
  rw [hcas]
  dsimp only
  rw [if_neg h2, if_pos hw]

theorem shutdownWorkers_drain (b : Broker) (env : ShutdownEnv)
    (h1 : b.running = 1) (h2 : ¬ b.workers.length = 0)
    (hw : (waitTokens env.selectEvents 0 b.workers.length).2 = false) :
    shutdownWorkers b env
      = (({ b with running := 0 },
          if (List.range b.workers.length).filterMap env.poolErrs = [] then none
          else some (Err.multi ((List.range b.workers.length).filterMap env.poolErrs))),
         { closeCalls := 1, tokensReceived := b.workers.length,
           shutdownCalls := b.workers.length }) := by
  have hcas : compareAndSwapUint32 b.running 1 0 = (0, true) := by rw [h1]; rfl
  unfold shutdownWorkers
  rw [hcas]
  dsimp only
  rw [if_neg h2, if_neg (by rw [hw]; simp)]

/-! ## Claim C1 -/

/-- C1, counterexample: `StartWorkers` on a fresh broker succeeds, a
`ShutdownWorkers` succeeds, and a subsequent `StartWorkers` succeeds again
(in particular it does not fail with `ErrClosed`): the flag transition of
`ShutdownWorkers` is the CAS 1 → 0, which returns the flag to its initial
value, so the broker can be restarted after shutdown. -/
theorem c1_counterexample :
    (startWorkers noStartErr newRedisBroker
        [{ workerType := "t", concurrency := 1 }]).1.2 = none
    ∧ (shutdownWorkers
        (startWorkers noStartErr newRedisBroker
          [{ workerType := "t", concurrency := 1 }]).1.1 allTokensEnv).1.2 = none
    ∧ (startWorkers noStartErr
        (shutdownWorkers
          (startWorkers noStartErr newRedisBroker
            [{ workerType := "t", concurrency := 1 }]).1.1 allTokensEnv).1.1
        [{ workerType := "t", concurrency := 1 }]).1.2 = none
    ∧ (startWorkers noStartErr
        (shutdownWorkers
          (startWorkers noStartErr newRedisBroker
            [{ workerType := "t", concurrency := 1 }]).1.1 allTokensEnv).1.1
        [{ workerType := "t", concurrency := 1 }]).1.2 ≠ some Err.closed := by
  refine ⟨rfl, rfl, rfl, ?_⟩
  intro h
  exact Option.noConfusion h

/-- C1 as amended: the lifecycle flag permits the transitions 0 → 1
(`StartWorkers`) and 1 → 0 (`ShutdownWorkers`); since shutdown returns the
flag to 0, a subsequent `StartWorkers` does not fail with `ErrClosed` — the
broker can be restarted after shutdown.  `StartWorkers` fails with
`ErrClosed` exactly when the flag is nonzero, i.e. while the broker is
running. -/
theorem c1_restart_after_shutdown (b : Broker) (env : ShutdownEnv)
    (f : WorkerConfig → Option String) (ws : List WorkerConfig) (b2 : Broker)
    (h : b.running = 1) :
    (shutdownWorkers b env).1.1.running = 0
    ∧ ((startWorkers f b2 ws).1.2 = some Err.closed ↔ b2.running ≠ 0) := by
  constructor
  · have hcas : compareAndSwapUint32 b.running 1 0 = (0, true) := by
      rw [h]; rfl
    unfold shutdownWorkers
    rw [hcas]
    split
    · rename_i heq
      simp at heq
    · rename_i r heq
      injection heq with h1 h2
      subst h1
      dsimp only
      split
      · rfl
      · split <;> rfl
  · constructor
    · intro hc
      by_contra h0
      have hne := startWorkersLoop_ne_closed f ws
        { b2 with running := 1 } emptyStartEffects
      unfold startWorkers compareAndSwapUint32 at hc
      rw [if_pos h0] at hc
      exact hne hc
    · intro h2
      unfold startWorkers compareAndSwapUint32
      rw [if_neg h2]

/-- C1 witness: the amended theorem applied to a concrete running broker. -/
theorem c1_witness :
    (shutdownWorkers
        { running := 1, workers := [], workersTypes := [] } allTokensEnv).1.1.running = 0
    ∧ ((startWorkers noStartErr newRedisBroker []).1.2 = some Err.closed
        ↔ newRedisBroker.running ≠ 0) :=
  c1_restart_after_shutdown
    { running := 1, workers := [], workersTypes := [] }
    allTokensEnv noStartErr [] newRedisBroker rfl

/-! ## Claim C2 -/

/-- C2: in every poll-loop iteration that issues the blocking pop (that is,
whenever the running flag observed at the loop head is nonzero), the pop is
issued over the ordered key pair (manual lane `"j/<worker_type>/p0"` first,
normal lane `"j/<worker_type>"` second), except that when the iteration's
uniform draw from {0,1,2} equals 0 — one value out of the three, probability
1/3 — the two keys are swapped and the normal lane comes first. -/
theorem c2_brpop_key_order (wt : String) (inp : PollInput)
    (h : inp.running ≠ 0) :
    (pollIteration (redisPrefixKey ++ wt) inp).brpopKeys =
      some (if inp.draw = 0
        then (redisPrefixKey ++ wt,
              redisPrefixKey ++ wt ++ redisHighPrioritySuffix)
        else (redisPrefixKey ++ wt ++ redisHighPrioritySuffix,
              redisPrefixKey ++ wt))
    ∧ (Finset.filter (fun d : Fin 3 => d = 0) Finset.univ).card = 1
    ∧ (Finset.univ : Finset (Fin 3)).card = 3 := by
  refine ⟨?_, by decide, by decide⟩
  exact pollIteration_brpopKeys (redisPrefixKey ++ wt) inp h

/-- C2 witness: a concrete iteration with draw 0 prefers the normal lane. -/
theorem c2_witness :
    (pollIteration (redisPrefixKey ++ "t")
        { running := 1, draw := 0, popResult := none, getJob := sampleGet }).brpopKeys
      = some (redisPrefixKey ++ "t",
              redisPrefixKey ++ "t" ++ redisHighPrioritySuffix) := by
  have h := (c2_brpop_key_order "t"
      { running := 1, draw := 0, popResult := none, getJob := sampleGet }
      (by decide)).1
  simpa using h

/-! ## Claim C4 -/

/-- C4: `PushJob` returns `ErrClosed` when the running flag is 0 (the broker
is not Running) and `ErrUnknownWorker` when the request's worker type is not
among the registered names; in either rejection case no job is created in
the store and nothing is pushed onto any queue. -/
theorem c4_pushjob_rejection (b : Broker) (env : PushEnv) (req : JobRequest) :
    (b.running = 0 →
      pushJob b env req
        = (Except.error Err.closed, { created := [], lpushCalls := [] }))
    ∧ (b.running ≠ 0 → IsInArray req.workerType b.workersTypes = false →
      pushJob b env req
        = (Except.error Err.unknownWorker, { created := [], lpushCalls := [] })) := by
  constructor
  · intro h
    simp [pushJob, h]
  · intro h1 h2
    simp [pushJob, h1, h2]

/-- C4 witness: a closed broker rejects, and a running broker rejects an
unregistered worker type. -/
theorem c4_witness :
    pushJob { running := 0, workers := [], workersTypes := ["t"] }
        { newJobID := "1", createErr := none, lpushErr := none }
        { workerType := "t", domain := "d", manual := false }
      = (Except.error Err.closed, { created := [], lpushCalls := [] })
    ∧ pushJob { running := 1, workers := [], workersTypes := ["t"] }
        { newJobID := "1", createErr := none, lpushErr := none }
        { workerType := "u", domain := "d", manual := false }
      = (Except.error Err.unknownWorker, { created := [], lpushCalls := [] }) :=
  ⟨(c4_pushjob_rejection _ _ _).1 rfl,
   (c4_pushjob_rejection _ _ _).2 (by decide) (by decide)⟩

/-! ## Claim C5 -/

/-- C5: for every accepted request (broker running, worker type registered),
`PushJob` first persists the job via `Create`, then left-pushes
`"<domain>/<job_id>"` onto `"j/" + worker_type` when `manual` is false and
onto `"j/" + worker_type + "/p0"` when `manual` is true; a `Create` or
`LPush` error is returned as-is (as the `store` error it came from), and on
success the persisted job is returned. -/
theorem c5_pushjob_accepted (b : Broker) (env : PushEnv) (req : JobRequest)
    (h1 : b.running ≠ 0) (h2 : IsInArray req.workerType b.workersTypes = true) :
    (∀ e, env.createErr = some e →
      pushJob b env req
        = (Except.error (Err.store e), { created := [], lpushCalls := [] }))
    ∧ (env.createErr = none → ∀ e, env.lpushErr = some e →
      pushJob b env req
        = (Except.error (Err.store e),
           { created := [NewJob env.newJobID req], lpushCalls := [] }))
    ∧ (env.createErr = none → env.lpushErr = none →
      pushJob b env req
        = (Except.ok (NewJob env.newJobID req),
           { created := [NewJob env.newJobID req],
             lpushCalls := [(if req.manual
                 then redisPrefixKey ++ req.workerType ++ redisHighPrioritySuffix
                 else redisPrefixKey ++ req.workerType,
               req.domain ++ "/" ++ env.newJobID)] })) := by
  refine ⟨?_, ?_, ?_⟩
  · intro e he
    simp [pushJob, h1, h2, he]
  · intro hc e he
    simp [pushJob, h1, h2, hc, he, NewJob]
  · intro hc he
    simp [pushJob, h1, h2, hc, he, NewJob]

/-- C5 witness: a manual job on a running broker lands on the `/p0` lane
after being persisted. -/
theorem c5_witness :
    pushJob { running := 1, workers := [], workersTypes := ["t"] }
        { newJobID := "1", createErr := none, lpushErr := none }
        { workerType := "t", domain := "d", manual := true }
      = (Except.ok (NewJob "1" { workerType := "t", domain := "d", manual := true }),
         { created := [NewJob "1" { workerType := "t", domain := "d", manual := true }],
           lpushCalls := [("j/t/p0", "d/1")] }) := by
  have h := (c5_pushjob_accepted
      { running := 1, workers := [], workersTypes := ["t"] }
      { newJobID := "1", createErr := none, lpushErr := none }
      { workerType := "t", domain := "d", manual := true }
      (by decide) (by decide)).2.2 rfl rfl
  rw [h]
  rfl

/-! ## Claim C10 -/

/-- C10: `PushJob` is not atomic with respect to errors: when `Create`
succeeds but the subsequent `LPush` fails, the push error is returned while
the job stays in the `created` effects (the source performs no rollback or
delete) and no `LPush` call was recorded, so the job is never enqueued on
any lane. -/
theorem c10_push_not_atomic (b : Broker) (env : PushEnv) (req : JobRequest)
    (e : String) (h1 : b.running ≠ 0)
    (h2 : IsInArray req.workerType b.workersTypes = true)
    (hc : env.createErr = none) (hp : env.lpushErr = some e) :
    pushJob b env req
      = (Except.error (Err.store e),
         { created := [NewJob env.newJobID req], lpushCalls := [] }) := by
  simp [pushJob, h1, h2, hc, hp]

/-- C10 witness: a concrete failed push after a successful create. -/
theorem c10_witness :
    pushJob { running := 1, workers := [], workersTypes := ["t"] }
        { newJobID := "1", createErr := none, lpushErr := some "redis gone" }
        { workerType := "t", domain := "d", manual := false }
      = (Except.error (Err.store "redis gone"),
         { created := [NewJob "1" { workerType := "t", domain := "d", manual := false }],
           lpushCalls := [] }) :=
  c10_push_not_atomic _ _ _ _ (by decide) (by decide) rfl rfl

/-! ## Claim C3 -/

/-- C3: during `ShutdownWorkers` on a running broker with at least one pool,
exactly one token per pool is received from the closed channel before any
pool's `Shutdown` is invoked (`shutdownCalls > 0` forces
`tokensReceived = |pools|`); if the context expires before all tokens are
received, the context error is returned and no pool `Shutdown` is invoked;
otherwise every pool's `Shutdown` runs and their non-nil errors are
aggregated into the single returned multi-error (nil when all succeed). -/
theorem c3_shutdown_token_protocol (b : Broker) (env : ShutdownEnv)
    (h1 : b.running = 1) (h2 : b.workers ≠ []) :
    ((∃ i, i < b.workers.length ∧ env.selectEvents i = SelectEvent.ctxDone) →
       (shutdownWorkers b env).1.2 = some (Err.ctx env.ctxErrMsg)
       ∧ (shutdownWorkers b env).2.shutdownCalls = 0)
    ∧ ((∀ i, i < b.workers.length → env.selectEvents i = SelectEvent.closedToken) →
       (shutdownWorkers b env).2.tokensReceived = b.workers.length
       ∧ (shutdownWorkers b env).2.shutdownCalls = b.workers.length
       ∧ (shutdownWorkers b env).1.2
           = (if (List.range b.workers.length).filterMap env.poolErrs = [] then none
              else some (Err.multi ((List.range b.workers.length).filterMap env.poolErrs))))
    ∧ (0 < (shutdownWorkers b env).2.shutdownCalls →
       (shutdownWorkers b env).2.tokensReceived = b.workers.length) := by
  have hlen : ¬ b.workers.length = 0 := by
    simpa [List.length_eq_zero] using h2
  refine ⟨?_, ?_, ?_⟩
  · intro hex
    have hw : (waitTokens env.selectEvents 0 b.workers.length).2 = true :=
      waitTokens_ctxDone env.selectEvents b.workers.length 0 (by simpa using hex)
    rw [shutdownWorkers_ctx b env h1 hlen hw]
    exact ⟨rfl, rfl⟩
  · intro hall
    have hw : waitTokens env.selectEvents 0 b.workers.length
        = (b.workers.length, false) :=
      waitTokens_all_closed env.selectEvents b.workers.length 0
        (fun i hi => by simpa using hall i (by simpa using hi))
    rw [shutdownWorkers_drain b env h1 hlen (by rw [hw])]
    exact ⟨rfl, rfl, rfl⟩
  · intro hpos
    by_cases hw2 : (waitTokens env.selectEvents 0 b.workers.length).2 = true
    · rw [shutdownWorkers_ctx b env h1 hlen hw2] at hpos
      simp at hpos
    · have hf : (waitTokens env.selectEvents 0 b.workers.length).2 = false := by
        revert hw2
        cases (waitTokens env.selectEvents 0 b.workers.length).2 <;> simp
      rw [shutdownWorkers_drain b env h1 hlen hf]

/-- C3 witness: a one-pool broker whose poll loop signals; all tokens are
received and the single pool is drained. -/
theorem c3_witness :
    (shutdownWorkers
        { running := 1, workers := [{ workerType := "t", concurrency := 1 }],
          workersTypes := ["t"] } allTokensEnv).2.tokensReceived = 1
    ∧ (shutdownWorkers
        { running := 1, workers := [{ workerType := "t", concurrency := 1 }],
          workersTypes := ["t"] } allTokensEnv).2.shutdownCalls = 1 := by
  have h := (c3_shutdown_token_protocol
      { running := 1, workers := [{ workerType := "t", concurrency := 1 }],
        workersTypes := ["t"] } allTokensEnv rfl (by decide)).2.1
    (fun i _ => rfl)
  exact ⟨h.1, h.2.1⟩

/-! ## Claim C6 -/

/-- C6: in every poll-loop iteration that does not exit, a pop error or a
result with fewer than 2 fields causes a 100 ms sleep and continuation; a
matched key shorter than the prefix `"j/"`, a payload with no slash, or a
`(domain, job_id)` the store cannot resolve each cause the payload to be
logged and dropped without sleeping; none of these branches delivers a job
(the step constructors differ from `deliver`), and no iteration ever pushes
anything back onto a queue (`lpushCalls` is empty on every path). -/
theorem c6_poll_error_handling (key : String) (inp : PollInput)
    (h : inp.running ≠ 0) :
    (inp.popResult = none →
      (pollIteration key inp).step = PollStep.sleepContinue 100)
    ∧ (∀ rs, inp.popResult = some rs → rs.length < 2 →
      (pollIteration key inp).step = PollStep.sleepContinue 100)
    ∧ (∀ k v rest, inp.popResult = some (k :: v :: rest) →
      k.length < redisPrefixKey.length →
      (pollIteration key inp).step = PollStep.dropContinue ("Invalid key " ++ k))
    ∧ (∀ k v rest, inp.popResult = some (k :: v :: rest) →
      ¬ k.length < redisPrefixKey.length → '/' ∉ v.data →
      (pollIteration key inp).step = PollStep.dropContinue ("Invalid val " ++ v))
    ∧ (∀ k v rest d jd, inp.popResult = some (k :: v :: rest) →
      ¬ k.length < redisPrefixKey.length → splitN2 v = [d, jd] →
      inp.getJob d jd = none →
      (pollIteration key inp).step
        = PollStep.dropContinue ("Cannot find job " ++ jd ++ " on domain " ++ d))
    ∧ (pollIteration key inp).lpushCalls = [] := by
  refine ⟨?_, ?_, ?_, ?_, ?_, pollIteration_lpushCalls key inp⟩
  · intro hp
    simp [pollIteration, h, hp]
  · intro rs hp hlt
    simp [pollIteration, h, hp, hlt]
  · intro k v rest hp hk
    simp [pollIteration, h, hp, hk]
    rw [if_neg (by omega)]
  · intro k v rest hp hk hv
    have hsp : splitN2 v = [v] := by
      unfold splitN2
      rw [(splitN2Chars_eq_none v.data).mpr hv]
    simp [pollIteration, h, hp, hk, hsp]
    rw [if_neg (by omega)]
  · intro k v rest d jd hp hk hsp hg
    simp [pollIteration, h, hp, hk, hsp, hg]
    rw [if_neg (by omega)]

/-- C6 witness: a concrete iteration with a pop error sleeps 100 ms. -/
theorem c6_witness :
    (pollIteration "j/t"
        { running := 1, draw := 1, popResult := none, getJob := sampleGet }).step
      = PollStep.sleepContinue 100 :=
  (c6_poll_error_handling "j/t"
      { running := 1, draw := 1, popResult := none, getJob := sampleGet }
      (by decide)).1 rfl

/-! ## Claim C7 -/

/-- C7: a poll loop exits (and then emits exactly one token on the closed
channel) if and only if some iteration observes the running flag equal to 0
— the value it holds whenever the broker is not Running — at the loop head;
when every observed flag value is nonzero the loop emits no token and
processes every iteration of the trace, so no error or malformed payload
ever terminates it; the token count never exceeds one. -/
theorem c7_poll_exit_token (key : String) (inps : List PollInput) :
    ((pollLoopRun key inps).2 = 1 ↔ ∃ inp ∈ inps, inp.running = 0)
    ∧ ((∀ inp ∈ inps, inp.running ≠ 0) →
        (pollLoopRun key inps).2 = 0
        ∧ (pollLoopRun key inps).1.length = inps.length)
    ∧ (pollLoopRun key inps).2 ≤ 1 :=
  ⟨pollLoopRun_tokens_iff key inps,
   fun h => pollLoopRun_no_exit key inps h,
   pollLoopRun_tokens_le_one key inps⟩

/-- C7 witness: a trace whose second iteration observes flag 0 yields
exactly one token. -/
theorem c7_witness :
    (pollLoopRun "j/t"
        [{ running := 1, draw := 1, popResult := none, getJob := sampleGet },
         { running := 0, draw := 0, popResult := none, getJob := sampleGet }]).2 = 1 :=
  (c7_poll_exit_token "j/t"
      [{ running := 1, draw := 1, popResult := none, getJob := sampleGet },
       { running := 0, draw := 0, popResult := none, getJob := sampleGet }]).1.mpr
    ⟨{ running := 0, draw := 0, popResult := none, getJob := sampleGet },
     List.mem_cons_of_mem _ (List.mem_cons_self _ _), rfl⟩

/-! ## Claim C8 -/

/-- C8, counterexample: on a running broker started with zero pools,
`ShutdownWorkers` returns nil after the early `len(b.workers) == 0` return,
which happens before `defer b.client.Close()` is installed — so the queue
client's `Close` is called zero times, not exactly once. -/
theorem c8_counterexample :
    (shutdownWorkers { running := 1, workers := [], workersTypes := ["t"] }
        allTokensEnv).2.closeCalls = 0
    ∧ (shutdownWorkers { running := 1, workers := [], workersTypes := ["t"] }
        allTokensEnv).1.2 = none
    ∧ ¬ (shutdownWorkers { running := 1, workers := [], workersTypes := ["t"] }
        allTokensEnv).2.closeCalls = 1 :=
  ⟨rfl, rfl, by decide⟩

/-- C8 as amended: during `ShutdownWorkers` on a running broker with at
least one pool, the queue client's `Close` is called exactly once — both
when shutdown returns the context error and when it proceeds to pool drain;
with zero pools `ShutdownWorkers` returns nil without calling `Close`. -/
theorem c8_close_once_with_pools (b : Broker) (env : ShutdownEnv)
    (h1 : b.running = 1) :
    (b.workers ≠ [] → (shutdownWorkers b env).2.closeCalls = 1)
    ∧ (b.workers = [] →
        (shutdownWorkers b env).2.closeCalls = 0
        ∧ (shutdownWorkers b env).1.2 = none) := by
  constructor
  · intro hw
    have hlen : ¬ b.workers.length = 0 := by
      simpa [List.length_eq_zero] using hw
    by_cases hw2 : (waitTokens env.selectEvents 0 b.workers.length).2 = true
    · rw [shutdownWorkers_ctx b env h1 hlen hw2]
    · have hf : (waitTokens env.selectEvents 0 b.workers.length).2 = false := by
        revert hw2
        cases (waitTokens env.selectEvents 0 b.workers.length).2 <;> simp
      rw [shutdownWorkers_drain b env h1 hlen hf]
  · intro hw
    have hlen : b.workers.length = 0 := by simp [hw]
    rw [shutdownWorkers_noWorkers b env h1 hlen]
    exact ⟨rfl, rfl⟩

/-- C8 witness: the amended theorem at a one-pool broker, and at the same
broker with its pool list emptied. -/
theorem c8_witness :
    (shutdownWorkers
        { running := 1, workers := [{ workerType := "t", concurrency := 1 }],
          workersTypes := ["t"] } allTokensEnv).2.closeCalls = 1 :=
  (c8_close_once_with_pools
      { running := 1, workers := [{ workerType := "t", concurrency := 1 }],
        workersTypes := ["t"] } allTokensEnv rfl).1 (by decide)

/-! ## Claim C9 -/

/-- C9: for every worker list on which `StartWorkers` succeeds from a fresh
broker, every worker-type name is appended to the registered-types sequence
— including entries with concurrency 0 (or negative) — while a pool and a
poll loop are created only for entries with concurrency strictly greater
than 0; `WorkersTypes` then returns all registered names regardless of
concurrency. -/
theorem c9_start_registration (f : WorkerConfig → Option String)
    (ws : List WorkerConfig)
    (h : (startWorkers f newRedisBroker ws).1.2 = none) :
    (startWorkers f newRedisBroker ws).1.1.workersTypes
        = ws.map WorkerConfig.workerType
    ∧ WorkersTypes (startWorkers f newRedisBroker ws).1.1
        = ws.map WorkerConfig.workerType
    ∧ (startWorkers f newRedisBroker ws).1.1.workers
        = ws.filter (fun c => decide (0 < c.concurrency))
    ∧ (startWorkers f newRedisBroker ws).2.pollLoopKeys
        = (ws.filter (fun c => decide (0 < c.concurrency))).map
            (fun c => redisPrefixKey ++ c.workerType) := by
  have hred : startWorkers f newRedisBroker ws
      = startWorkersLoop f { running := 1, workers := [], workersTypes := [] }
          ws emptyStartEffects := rfl
  rw [hred] at h ⊢
  obtain ⟨t1, t2, t3, _⟩ := startWorkersLoop_success f ws _ _ h
  exact ⟨t1.trans (by simp), t1.trans (by simp), t2.trans (by simp),
    t3.trans (by simp [emptyStartEffects])⟩

/-- C9 witness: a list with a concurrency-0 entry and a concurrency-2 entry:
both names are registered, only the second gets a pool and a poll loop. -/
theorem c9_witness :
    (startWorkers noStartErr newRedisBroker
        [{ workerType := "a", concurrency := 0 },
         { workerType := "b", concurrency := 2 }]).1.1.workersTypes = ["a", "b"]
    ∧ (startWorkers noStartErr newRedisBroker
        [{ workerType := "a", concurrency := 0 },
         { workerType := "b", concurrency := 2 }]).1.1.workers
        = [{ workerType := "b", concurrency := 2 }]
    ∧ (startWorkers noStartErr newRedisBroker
        [{ workerType := "a", concurrency := 0 },
         { workerType := "b", concurrency := 2 }]).2.pollLoopKeys = ["j/b"] := by
  obtain ⟨t1, _, t3, t4⟩ := c9_start_registration noStartErr
    [{ workerType := "a", concurrency := 0 },
     { workerType := "b", concurrency := 2 }] rfl
  exact ⟨t1.trans (by decide), t3.trans (by decide), t4.trans (by decide)⟩

end CozyJobs
